import Mathlib

/-!
# TrackYourSheets — verification of the ingestion / override pipeline

Shallow embedding of the commission-statement ingestion and override code of
`app/imports.py` and `app/admin.py`.  In the ingestion pipeline, `Decimal`
and `float` values are embedded as `PyDec` — a finite exact rational, a
quiet or signaling NaN, or a signed infinity — because statement cells such
as `"nan"` or `"-Infinity"` really construct those values in the source;
the `decimal.InvalidOperation` they can trigger (NaN comparison, signaling
NaN arithmetic, `0 × ∞`) is modelled by `Except.error`.  Finite decimal
arithmetic is exact `ℚ` arithmetic (the operations exercised —
multiplication and division by 100 — are exact at the 28-digit context
precision for all inputs considered, and the `Numeric(12,2)` storage
quantization belongs to the persistence layer, which is out of scope).
Python `float` construction is an explicit IEEE-754 binary64
round-to-nearest-even model (`roundF64`), including subnormal underflow
and overflow to infinity.  The override engine manipulates stored
transaction states with finite decimal money values, embedded as `ℚ`.
`None` becomes `Option.none`, and Python truthiness (`or`-fallback on
`None`/`""`/`0`) is modelled by explicit helpers.
-/

namespace TrackYourSheets

/-! ## Python-semantics helpers -/

/-- Python `a or b` for optional strings: `None` and `""` are falsy. -/
def pyOrStrOpt (a b : Option String) : Option String :=
  match a with
  | some s => if s = "" then b else some s
  | none => b

/-- Python `a or b` where `a` is an optional string and `b` a string. -/
def pyOrStr (a : Option String) (b : String) : String :=
  match a with
  | some s => if s = "" then b else s
  | none => b

/-- Python `a or b` for optional numbers: `None` and `0` are falsy. -/
def pyOrOptQ (a b : Option ℚ) : Option ℚ :=
  match a with
  | some x => if x = 0 then b else some x
  | none => b

/-- ASCII whitespace recognised by Python's `str.strip` on the inputs here. -/
def isSpaceChar (c : Char) : Bool :=
  c = ' ' || c = '\t' || c = '\n' || c = '\r' || c = '\x0b' || c = '\x0c'

/-- Strip whitespace from both ends of a character list (`str.strip`). -/
def stripChars (cs : List Char) : List Char :=
  ((cs.dropWhile isSpaceChar).reverse.dropWhile isSpaceChar).reverse

/-- `str.strip` on strings. -/
def pyStrip (s : String) : String := ⟨stripChars s.data⟩

/-- `str.lower` (ASCII lowering suffices for the inputs considered). -/
def lowerStr (s : String) : String := ⟨s.data.map Char.toLower⟩

/-- `_safe_str` from `app/imports.py`: `"" if value is None else
    str(value).strip().lower()`. -/
def safe_str (value : Option String) : String :=
  match value with
  | none => ""
  | some s => lowerStr (pyStrip s)

/-- `_safe_str` applied to an always-present string. -/
def safe_str1 (s : String) : String := lowerStr (pyStrip s)

/-! ## Decimal values

Python's `Decimal` (and `float`) carry special values besides finite
decimals: quiet and signaling NaNs and signed infinities.  `PyDec` embeds
them; a finite value is its exact rational.  This is the value type of the
ingestion pipeline, where cells such as `"nan"` or `"-Infinity"` really
produce these values in the source. -/

inductive PyDec where
  | fin (q : ℚ)
  /-- `Decimal("NaN")` (`signaling := false`) or `Decimal("sNaN")`. -/
  | nan (signaling : Bool)
  | inf (neg : Bool)
deriving DecidableEq, Repr

instance exceptDecEq {ε α : Type} [DecidableEq ε] [DecidableEq α] :
    DecidableEq (Except ε α)
  | .error a, .error b =>
      if h : a = b then .isTrue (by rw [h]) else .isFalse (by simp [h])
  | .error _, .ok _ => .isFalse (by simp)
  | .ok _, .error _ => .isFalse (by simp)
  | .ok a, .ok b =>
      if h : a = b then .isTrue (by rw [h]) else .isFalse (by simp [h])

/-- `bool()` of a `Decimal`/`float`: zero is falsy, specials are truthy. -/
def pyDecTruthy : PyDec → Bool
  | .fin q => q ≠ 0
  | .nan _ => true
  | .inf _ => true

/-- Decimal ordered comparison `d > 1`: any NaN operand signals
    `decimal.InvalidOperation` (this is the uncaught exception
    `_resolve_commission_amount` hits on a NaN rate). -/
def pyDecGtOne : PyDec → Except String Bool
  | .fin q => .ok (1 < q)
  | .inf neg => .ok (!neg)
  | .nan _ => .error "InvalidOperation"

/-- Decimal division by `Decimal("100")`: quiet NaN propagates, infinities
    survive, a signaling NaN operand raises. -/
def pyDecDiv100 : PyDec → Except String PyDec
  | .fin q => .ok (.fin (q / 100))
  | .inf neg => .ok (.inf neg)
  | .nan false => .ok (.nan false)
  | .nan true => .error "InvalidOperation"

/-- Decimal multiplication: a signaling NaN operand and `0 × ∞` raise
    `decimal.InvalidOperation`; a quiet NaN propagates. -/
def pyDecMul : PyDec → PyDec → Except String PyDec
  | .nan true, _ => .error "InvalidOperation"
  | _, .nan true => .error "InvalidOperation"
  | .nan false, _ => .ok (.nan false)
  | _, .nan false => .ok (.nan false)
  | .inf n1, .inf n2 => .ok (.inf (xor n1 n2))
  | .inf n1, .fin q =>
      if q = 0 then .error "InvalidOperation"
      else .ok (.inf (if q < 0 then !n1 else n1))
  | .fin q, .inf n2 =>
      if q = 0 then .error "InvalidOperation"
      else .ok (.inf (if q < 0 then !n2 else n2))
  | .fin a, .fin b => .ok (.fin (a * b))

/-! ## Decimal-literal parsing

`decimalDigits?` parses an unsigned decimal literal `digits[.digits]`
(either side of the dot may be empty, but not both) to an exact rational.
`parseUnsignedLit` adds an optional `e`/`E` exponent.  On top of that,
`pyDecimalParse` and `pyFloatParse` model the full constructors: an
optional sign, PEP-515 underscores (valid only between digits), and the
`nan`/`snan`/`inf`/`infinity` spellings (case-insensitive; `Decimal` also
accepts NaN diagnostic digits, `float` does not accept `snan`). -/

def isDigitChar (c : Char) : Bool := '0' ≤ c && c ≤ '9'

def digitsToNat (ds : List Char) : Nat :=
  ds.foldl (fun a c => a * 10 + (c.toNat - 48)) 0

def allDigits (ds : List Char) : Bool := ds.all isDigitChar

/-- Parse `digits[.digits]` / `.digits` / `digits.` to an exact rational. -/
def decimalDigits? (cs : List Char) : Option ℚ :=
  let intPart := cs.takeWhile (fun c => c ≠ '.')
  let rest := cs.dropWhile (fun c => c ≠ '.')
  match rest with
  | [] =>
      if intPart ≠ [] ∧ allDigits intPart then some ((digitsToNat intPart : ℚ)) else none
  | _ :: frac =>
      if allDigits intPart ∧ allDigits frac ∧ (intPart ≠ [] ∨ frac ≠ []) ∧
          frac.all (fun c => c ≠ '.') then
        some ((digitsToNat intPart * 10 ^ frac.length + digitsToNat frac : ℚ) /
          (10 ^ frac.length : ℕ))
      else none

/-- Strip an optional leading sign, returning (negative?, rest). -/
def splitSign (cs : List Char) : Bool × List Char :=
  match cs with
  | '+' :: rest => (false, rest)
  | '-' :: rest => (true, rest)
  | _ => (false, cs)

/-- Parse an unsigned decimal literal with optional exponent (no sign of
    its own in front of the mantissa). -/
def parseUnsignedLit (cs : List Char) : Option ℚ :=
  let mantissa := cs.takeWhile (fun c => c ≠ 'e' ∧ c ≠ 'E')
  let expPart := cs.dropWhile (fun c => c ≠ 'e' ∧ c ≠ 'E')
  match expPart with
  | [] => decimalDigits? mantissa
  | _ :: es =>
      let (eneg, edigits) := splitSign es
      if edigits ≠ [] ∧ allDigits edigits then
        (decimalDigits? mantissa).map (fun m =>
          if eneg then m / ((10 : ℚ) ^ digitsToNat edigits)
          else m * ((10 : ℚ) ^ digitsToNat edigits))
      else none

/-- PEP-515: every underscore must sit directly between two digits. -/
def underscoresOkAux : Option Char → List Char → Bool
  | _, [] => true
  | prev, c :: rest =>
      if c = '_' then
        (match prev with
          | some p => isDigitChar p
          | none => false) &&
        (match rest with
          | n :: _ => isDigitChar n
          | [] => false) &&
        underscoresOkAux (some c) rest
      else underscoresOkAux (some c) rest

/-- Validate underscore placement and remove the underscores. -/
def stripUnderscores (cs : List Char) : Option (List Char) :=
  if underscoresOkAux none cs then some (cs.filter (fun c => c ≠ '_')) else none

def lowerList (cs : List Char) : List Char := cs.map Char.toLower

/-- Python `Decimal(str(value))` on a string (`_decimal_or_none`'s core):
    surrounding whitespace, an optional sign, `nan`/`snan` (with optional
    diagnostic digits), `inf`/`infinity` and underscore literals are all
    accepted; anything else fails (`none`). -/
def pyDecimalParse (s : String) : Option PyDec :=
  let cs := stripChars s.data
  let (neg, body) := splitSign cs
  let lb := lowerList body
  if lb.take 3 = "nan".data ∧ allDigits (lb.drop 3) then some (.nan false)
  else if lb.take 4 = "snan".data ∧ allDigits (lb.drop 4) then some (.nan true)
  else if lb = "inf".data ∨ lb = "infinity".data then some (.inf neg)
  else
    match stripUnderscores body with
    | some clean => (parseUnsignedLit clean).map (fun q => .fin (if neg then -q else q))
    | none => none

/-! ## IEEE-754 binary64 rounding

`roundF64 q` is the exact rational value of binary64 round-to-nearest-even
applied to `q` with unbounded upper exponent: in the normal range it is the
nearest double, below `2^-1022` it rounds on the subnormal quantum
`2^-1074` (underflowing to `0` exactly as `float("1e-400")` does), and a
result `≥ 2^1024` is turned into an infinity by the caller
(`pyFloatParse`), matching `float("1e400") = inf`. -/

/-- Fuel-driven upward scan: smallest adjustment until `q < 2`.
    Returns the exponent `e` with `2^e ≤ q·2^e₀ < 2^(e+1)` style bookkeeping;
    fuel 1200 covers the whole binary64 exponent range. -/
def floorLog2Up : Nat → ℚ → ℤ → ℤ
  | 0, _, e => e
  | fuel + 1, q, e => if q < 2 then e else floorLog2Up fuel (q / 2) (e + 1)

/-- Fuel-driven downward scan for `q < 1`: divide-free doubling until `1 ≤ q`. -/
def floorLog2Down : Nat → ℚ → ℤ → ℤ
  | 0, _, e => e
  | fuel + 1, q, e => if 1 ≤ q then e else floorLog2Down fuel (q * 2) (e - 1)

/-- `⌊log₂ q⌋` for positive `q` (fuel-based, total). -/
def floorLog2 (q : ℚ) : ℤ :=
  if 1 ≤ q then floorLog2Up 1200 q 0 else floorLog2Down 1200 q 0

/-- Round-half-even to an integer (IEEE-754 tie-breaking). -/
def roundHalfEven (q : ℚ) : ℤ :=
  let f := ⌊q⌋
  let frac := q - f
  if frac < 1 / 2 then f
  else if 1 / 2 < frac then f + 1
  else if f % 2 = 0 then f else f + 1

/-- Multiply a rational by `2^k` for `k : ℤ`, avoiding `zpow` instances so
    that the kernel can evaluate it. -/
def mulPow2 (q : ℚ) (k : ℤ) : ℚ :=
  match k with
  | .ofNat n => q * ((2 ^ n : ℕ) : ℚ)
  | .negSucc n => q / ((2 ^ (n + 1) : ℕ) : ℚ)

/-- Round a positive rational to binary64 (normal or subnormal form);
    overflow to infinity is detected by the caller on the result. -/
def roundF64Pos (q : ℚ) : ℚ :=
  let e := floorLog2 q
  if e < -1022 then mulPow2 ((roundHalfEven (mulPow2 q 1074) : ℤ) : ℚ) (-1074)
  else
    let m := roundHalfEven (mulPow2 q (52 - e))
    mulPow2 (m : ℚ) (e - 52)

/-- Round-to-nearest-even binary64 model of Python `float` construction. -/
def roundF64 (q : ℚ) : ℚ :=
  if q = 0 then 0
  else if q < 0 then -(roundF64Pos (-q)) else roundF64Pos q

/-- Python `float(s)` on a cleaned string: strip whitespace, accept an
    optional sign and the `nan`/`inf`/`infinity` spellings
    (case-insensitive; `float` has no signaling NaN and no diagnostic
    digits), validate underscores, parse the decimal literal, round to
    binary64 and overflow to infinity at `2^1024`. -/
def pyFloatParse (cs : List Char) : Option PyDec :=
  let cs := stripChars cs
  let (neg, body) := splitSign cs
  let lb := lowerList body
  if lb = "nan".data then some (.nan false)
  else if lb = "inf".data ∨ lb = "infinity".data then some (.inf neg)
  else
    match stripUnderscores body with
    | some clean =>
        (parseUnsignedLit clean).map (fun q =>
          let r := roundF64 q
          if ((2 ^ 1024 : ℕ) : ℚ) ≤ r then .inf neg
          else .fin (if neg then -r else r))
    | none => none

/-! ## Dates and `strptime`

CSV cells are strings, so the `isinstance(value, (datetime, date))` branch of
`_parse_any_date` never fires and is not modelled.  Each format model follows
CPython's `_strptime` regexes: `%Y` is exactly four digits, `%m`/`%d` are one
or two digits matching `1[0-2]|0[1-9]|[1-9]` resp. `3[01]|[12]\d|0[1-9]|[1-9]`,
`%y` is exactly two digits with the 69 pivot, `%b` is a case-insensitive month
abbreviation, and a literal space matches a whitespace run.  A pattern match
followed by an out-of-range calendar date (e.g. Feb 30) raises `ValueError`,
which the callers catch by moving to the next format — modelled by `none`. -/

structure PyDate where
  year : Nat
  month : Nat
  day : Nat
deriving DecidableEq, Repr

def isLeapYear (y : Nat) : Bool := (y % 4 = 0 && y % 100 ≠ 0) || y % 400 = 0

def daysInMonth (y m : Nat) : Nat :=
  if m = 2 then (if isLeapYear y then 29 else 28)
  else if m = 4 ∨ m = 6 ∨ m = 9 ∨ m = 11 then 30 else 31

/-- `datetime.date(y, m, d)`: `none` models the `ValueError` on invalid dates. -/
def mkDate? (y m d : Nat) : Option PyDate :=
  if 1 ≤ y ∧ y ≤ 9999 ∧ 1 ≤ m ∧ m ≤ 12 ∧ 1 ≤ d ∧ d ≤ daysInMonth y m then
    some ⟨y, m, d⟩
  else none

def dateLE (a b : PyDate) : Bool :=
  a.year < b.year ∨ (a.year = b.year ∧
    (a.month < b.month ∨ (a.month = b.month ∧ a.day ≤ b.day)))

/-- `min` over a list of dates (`none` on the empty list). -/
def minDate (ds : List PyDate) : Option PyDate :=
  ds.foldl (fun acc d =>
    match acc with
    | none => some d
    | some m => if dateLE d m then some d else some m) none

def splitOnChar (sep : Char) : List Char → List (List Char)
  | [] => [[]]
  | c :: rest =>
      let tail := splitOnChar sep rest
      if c = sep then [] :: tail
      else
        match tail with
        | t :: ts => (c :: t) :: ts
        | [] => [[c]]

/-- Split on whitespace runs (tokens are nonempty when the input is stripped). -/
def wsSplit (cs : List Char) : List (List Char) :=
  ((splitOnChar ' ' ((cs.map (fun c => if isSpaceChar c then ' ' else c)))).filter
    (fun t => t ≠ []))

/-- `%Y`: exactly four digits. -/
def parseY4 (tok : List Char) : Option Nat :=
  if tok.length = 4 ∧ allDigits tok then some (digitsToNat tok) else none

/-- `%y`: exactly two digits, with CPython's century pivot at 69. -/
def parseY2 (tok : List Char) : Option Nat :=
  if tok.length = 2 ∧ allDigits tok then
    let v := digitsToNat tok
    some (if v ≤ 68 then 2000 + v else 1900 + v)
  else none

/-- `%m` as a delimited token: one or two digits, value 1–12, no `00`. -/
def parseMonthTok (tok : List Char) : Option Nat :=
  if (tok.length = 1 ∨ tok.length = 2) ∧ allDigits tok then
    let v := digitsToNat tok
    if 1 ≤ v ∧ v ≤ 12 then some v else none
  else none

/-- `%d` as a delimited token: one or two digits, value 1–31, no `00`. -/
def parseDayTok (tok : List Char) : Option Nat :=
  if (tok.length = 1 ∨ tok.length = 2) ∧ allDigits tok then
    let v := digitsToNat tok
    if 1 ≤ v ∧ v ≤ 31 then some v else none
  else none

def monthAbbrevs : List String :=
  ["jan", "feb", "mar", "apr", "may", "jun", "jul", "aug", "sep", "oct", "nov", "dec"]

/-- `%b`: case-insensitive month abbreviation. -/
def parseMonthName (tok : List Char) : Option Nat :=
  match monthAbbrevs.indexOf? (⟨tok.map Char.toLower⟩ : String) with
  | some i => some (i + 1)
  | none => none

/-- `%Y-%m-%d` / `%Y/%m/%d` depending on the separator. -/
def parseYmdSep (sep : Char) (cs : List Char) : Option PyDate :=
  match splitOnChar sep cs with
  | [y, m, d] => do mkDate? (← parseY4 y) (← parseMonthTok m) (← parseDayTok d)
  | _ => none

/-- `%m/%d/%Y`. -/
def parseMdY4 (cs : List Char) : Option PyDate :=
  match splitOnChar '/' cs with
  | [m, d, y] => do mkDate? (← parseY4 y) (← parseMonthTok m) (← parseDayTok d)
  | _ => none

/-- `%m/%d/%y`. -/
def parseMdY2 (cs : List Char) : Option PyDate :=
  match splitOnChar '/' cs with
  | [m, d, y] => do mkDate? (← parseY2 y) (← parseMonthTok m) (← parseDayTok d)
  | _ => none

def twoDigitVal (a b : Char) : Nat := (a.toNat - 48) * 10 + (b.toNat - 48)

/-- `%m` within `%Y%m%d`: regex alternatives `1[0-2] | 0[1-9] | [1-9]`, in
    that backtracking order, each with the unconsumed remainder. -/
def monthCandidates : List Char → List (Nat × List Char)
  | a :: b :: rest =>
      (if a = '1' ∧ '0' ≤ b ∧ b ≤ '2' then [(twoDigitVal a b, rest)] else []) ++
      (if a = '0' ∧ '1' ≤ b ∧ b ≤ '9' then [(twoDigitVal a b, rest)] else []) ++
      (if '1' ≤ a ∧ a ≤ '9' then [(a.toNat - 48, b :: rest)] else [])
  | [a] => if '1' ≤ a ∧ a ≤ '9' then [(a.toNat - 48, [])] else []
  | [] => []

/-- `%d` within `%Y%m%d`: regex alternatives `3[01] | [12]\d | 0[1-9] | [1-9]`. -/
def dayCandidates : List Char → List (Nat × List Char)
  | a :: b :: rest =>
      (if a = '3' ∧ ('0' = b ∨ b = '1') then [(twoDigitVal a b, rest)] else []) ++
      (if (a = '1' ∨ a = '2') ∧ isDigitChar b then [(twoDigitVal a b, rest)] else []) ++
      (if a = '0' ∧ '1' ≤ b ∧ b ≤ '9' then [(twoDigitVal a b, rest)] else []) ++
      (if '1' ≤ a ∧ a ≤ '9' then [(a.toNat - 48, b :: rest)] else [])
  | [a] => if '1' ≤ a ∧ a ≤ '9' then [(a.toNat - 48, [])] else []
  | [] => []

/-- `%Y%m%d`: the first fully-consuming match in backtracking order wins,
    then the calendar validity of that single match is checked. -/
def parseYmdCompact (cs : List Char) : Option PyDate :=
  match cs with
  | y1 :: y2 :: y3 :: y4 :: rest =>
      if allDigits [y1, y2, y3, y4] then
        match (monthCandidates rest).findSome? (fun mc =>
            (dayCandidates mc.2).findSome? (fun dc =>
              if dc.2 = [] then some (mc.1, dc.1) else none)) with
        | some (m, d) => mkDate? (digitsToNat [y1, y2, y3, y4]) m d
        | none => none
      else none
  | _ => none

/-- `%b %d %Y`. -/
def parseBdY (cs : List Char) : Option PyDate :=
  if cs = stripChars cs then
    match wsSplit cs with
    | [b, d, y] => do mkDate? (← parseY4 y) (← parseMonthName b) (← parseDayTok d)
    | _ => none
  else none

/-- `%d %b %Y`. -/
def parseDbY (cs : List Char) : Option PyDate :=
  if cs = stripChars cs then
    match wsSplit cs with
    | [d, b, y] => do mkDate? (← parseY4 y) (← parseMonthName b) (← parseDayTok d)
    | _ => none
  else none

/-- `_parse_any_date` from `app/imports.py`: the format list
    `%Y-%m-%d, %Y/%m/%d, %m/%d/%Y, %m/%d/%y, %Y%m%d, %b %d %Y, %d %b %Y`
    tried in order; `none` on total failure. -/
def parse_any_date (value : String) : Option PyDate :=
  [parseYmdSep '-', parseYmdSep '/', parseMdY4, parseMdY2,
    parseYmdCompact, parseBdY, parseDbY].findSome? (fun f => f value.data)

/-- `target.strftime("%Y-%m")` (years here are four-digit). -/
def strfYm (d : PyDate) : String :=
  toString d.year ++ "-" ++ (if d.month < 10 then "0" ++ toString d.month else toString d.month)

/-! ## Rows

A parsed CSV record is an association list in header-column order, which is
exactly the iteration order of the Python dicts produced by
`csv.DictReader` (`row.items()` iterates insertion order, and keys are
unique). -/

abbrev Row := List (String × String)

/-- `row.get(key)` on a dict with unique keys. -/
def row_get (row : Row) (key : String) : Option String :=
  (row.find? (fun kv => kv.1 = key)).map (·.2)

/-! ## Period inference (`_derive_period_month`, `app/imports.py`) -/

def periodTerms : List String := ["period", "month", "date", "effective", "written"]

/-- Does `big` start with `small`? -/
def startsWithChars : List Char → List Char → Bool
  | [], _ => true
  | _ :: _, [] => false
  | a :: as, b :: bs => a = b && startsWithChars as bs

/-- Python `small in big` substring containment. -/
def hasInfixChars (small : List Char) : List Char → Bool
  | [] => startsWithChars small []
  | c :: rest => startsWithChars small (c :: rest) || hasInfixChars small rest

/-- `any(term in key_lower for term in [...])`. -/
def hasPeriodTerm (keyLower : String) : Bool :=
  periodTerms.any (fun t => hasInfixChars t.data keyLower.data)

/-- The inner loop of `_derive_period_month` for one row: skip empty keys
    and empty values; on a key containing a period term, try to parse the
    value — on success stop scanning this row (`break`), on failure keep
    scanning. -/
def rowPeriodDate : Row → Option PyDate
  | [] => none
  | (k, v) :: rest =>
      if k = "" ∨ v = "" then rowPeriodDate rest
      else if hasPeriodTerm (lowerStr k) then
        match parse_any_date v with
        | some d => some d
        | none => rowPeriodDate rest
      else rowPeriodDate rest

/-- `_derive_period_month`: earliest of the per-row dates, else today;
    formatted `%Y-%m`. -/
def derive_period_month (rows : List Row) (today : PyDate) : String :=
  match minDate (rows.filterMap rowPeriodDate) with
  | some d => strfYm d
  | none => strfYm today

/-! ## Carrier grouping and resolution -/

/-- The dict key used by `_group_rows_by_carrier`:
    `(row.get(carrier_field) or "Unspecified").strip()`, then
    `carrier_name or "Unspecified"`. -/
def row_carrier_key (row : Row) (carrier_field : String) : String :=
  let s := pyStrip (pyOrStr (row_get row carrier_field) "Unspecified")
  if s = "" then "Unspecified" else s

/-- Deduplication worker: drop elements already seen. -/
def dedupKeep (seen : List String) : List String → List String
  | [] => []
  | x :: xs =>
      if List.elem x seen then dedupKeep seen xs
      else x :: dedupKeep (x :: seen) xs

/-- Deduplicate keeping the first occurrence (Python dict key order). -/
def firstDedup (l : List String) : List String := dedupKeep [] l

/-- `_group_rows_by_carrier`: the insertion-ordered dict built by
    `grouped.setdefault(key, []).append(row)` — keys in first-appearance
    order, each key holding its rows in file order. -/
def group_rows_by_carrier (rows : List Row) (carrier_field : String) : List (String × List Row) :=
  (firstDedup (rows.map (fun r => row_carrier_key r carrier_field))).map
    (fun k => (k, rows.filter (fun r => row_carrier_key r carrier_field = k)))

/-- A persisted `Carrier` record (`org_id` scoping is implicit: the model
    works inside one organization, matching the route's query filter). -/
structure CarrierRec where
  id : Nat
  name : String
deriving DecidableEq, Repr

/-- `_resolve_carrier`: case-insensitive first match within the org, else
    auto-create (fresh id, the submitted spelling kept as the name). -/
def resolve_carrier (carriers : List CarrierRec) (carrier_name : String) :
    CarrierRec × List CarrierRec :=
  match carriers.find? (fun c => lowerStr c.name = lowerStr carrier_name) with
  | some c => (c, carriers)
  | none =>
      let c : CarrierRec := ⟨carriers.length, carrier_name⟩
      (c, carriers ++ [c])

/-! ## `_normalize_row` -/

def premiumAliases : List String := ["premium", "Premium", "Written Premium", "Total Premium"]
def commissionAliases : List String :=
  ["commission", "Commission", "Commission Amount", "Commission Total"]
def policyAliases : List String := ["policy_number", "Policy Number", "Policy #", "Policy"]
def customerAliases : List String := ["customer", "Customer Name", "Insured", "Client"]

/-- `_first` inside `_normalize_row`: first alias present with a truthy value. -/
def first_alias (row : Row) (keys : List String) : Option String :=
  keys.findSome? (fun k =>
    match row_get row k with
    | some v => if v ≠ "" then some v else none
    | none => none)

/-- `_parse_amount` inside `_normalize_row` (`app/imports.py` lines
    480–487): drop `,` and `$`, then Python `float(cleaned)` — a binary64
    value, possibly `nan` or `±inf` — with `None` on `ValueError`. -/
def parse_amount (value : Option String) : Option PyDec :=
  match value with
  | none => none
  | some v =>
      if v = "" then none
      else pyFloatParse (v.data.filter (fun c => c ≠ ',' ∧ c ≠ '$'))

structure NormalizedRow where
  carrier : Option String
  policy_number : Option String
  customer : Option String
  /-- Python float; a finite one is embedded as the exact binary64 value. -/
  premium : Option PyDec
  commission : Option PyDec
  additional_data : List (String × String)
deriving DecidableEq, Repr

def known_keys (carrier_field : String) : List String :=
  carrier_field :: (premiumAliases ++ commissionAliases ++ policyAliases ++ customerAliases)

/-- `_normalize_row`. -/
def normalize_row (row : Row) (carrier_field : String) : NormalizedRow :=
  { carrier := row_get row carrier_field
    policy_number := first_alias row policyAliases
    customer := first_alias row customerAliases
    premium := parse_amount (first_alias row premiumAliases)
    commission := parse_amount (first_alias row commissionAliases)
    additional_data := row.filter (fun kv =>
      kv.1 ∉ known_keys carrier_field ∧ kv.2 ≠ "") }

/-! ## Python mixed values (`_decimal_or_none` takes floats or strings) -/

inductive PyVal where
  | vnum (d : PyDec)
  | vstr (s : String)
  | vnone
deriving DecidableEq, Repr

def pyTruthy : PyVal → Bool
  | .vnum d => pyDecTruthy d
  | .vstr s => s ≠ ""
  | .vnone => false

/-- Python `a or b` over mixed values. -/
def pyOrVal (a b : PyVal) : PyVal := if pyTruthy a then a else b

def strOrNone : Option String → PyVal
  | some s => .vstr s
  | none => .vnone

def numOrNone : Option PyDec → PyVal
  | some d => .vnum d
  | none => .vnone

/-- `_decimal_or_none` (`app/imports.py` lines 744–750).  String cells go
    through `Decimal(str)` with the construction failure caught (`None`).
    A numeric input (a float read back from a normalized map, or a
    `Numeric` column value) goes through `Decimal(str(value))`, which
    never fails: `nan` and `±inf` floats become the corresponding
    `Decimal` specials, and a finite float becomes the decimal of its
    shortest round-trip repr — embedded as the value itself, since no
    property proved in this file depends on the re-quantization noise (and
    for every currency string whose literal is a binary64 round-trip fixed
    point the two coincide). -/
def decimal_or_none : PyVal → Option PyDec
  | .vnone => none
  | .vstr s => if s = "" ∨ s = " " then none else pyDecimalParse s
  | .vnum d => some d

/-! ## Producer matching, split, commission and amount resolution -/

structure Producer where
  id : Nat
  workspace_id : Nat
  display_name : String
  /-- `producer.user.email` when the producer has a linked user. -/
  user_email : Option String
  default_split : Option ℚ
deriving DecidableEq, Repr

def producerHintKeys : List String :=
  ["producer", "producer_name", "producer full name", "agent", "agent_name",
    "writer", "producer_email", "agent_email"]

/-- `_match_producer`.  The Python set `normalized_hints` is modelled by
    `firstDedup`: its content is the deduplicated hints, and its
    (unspecified) iteration order is taken to be first-occurrence order —
    no property proved in this file depends on that choice. -/
def match_producer (row : Row) (workspace_id : Nat) (accessible : List Producer) :
    Option Producer :=
  if accessible = [] then none
  else
    let wps := accessible.filter (fun p => p.workspace_id = workspace_id)
    if wps = [] then none
    else
      let hints := producerHintKeys.filterMap (fun k =>
        match row_get row k with
        | some v => if v ≠ "" then some v else none
        | none => none)
      let normalizedHints := firstDedup (hints.map safe_str1)
      match normalizedHints.findSome? (fun hint => wps.find? (fun p =>
          (p.display_name ≠ "" && safe_str1 p.display_name = hint) ||
          (match p.user_email with
            | some e => e ≠ "" && safe_str1 e = hint
            | none => false))) with
      | some p => some p
      | none => if wps.length = 1 then wps.head? else none

def splitKeys : List String := ["split_pct", "split", "split %", "producer_split", "agent_split"]

/-- `_resolve_split`: first parseable split column, else the matched
    producer's `default_split` (a finite `Numeric` value; `_decimal_or_none`
    on it round-trips to itself).  No decimal arithmetic occurs here, so
    this resolver never raises. -/
def resolve_split (row : Row) (producer : Option Producer) : Option PyDec :=
  match splitKeys.findSome? (fun k => decimal_or_none (strOrNone (row_get row k))) with
  | some s => some s
  | none =>
      match producer with
      | some p => p.default_split.map PyDec.fin
      | none => none

def commissionKeys : List String :=
  ["commission", "commission_amount", "commission total", "agent_commission", "split_amount"]

/-- `_resolve_commission_amount`: explicit commission column, else
    `premium × rate` with rates `> 1` divided by 100 first.  The `rate > 1`
    comparison raises `decimal.InvalidOperation` on a NaN rate, and the
    product raises on a signaling NaN or `0 × ∞` — uncaught in the source,
    modelled by `Except.error`. -/
def resolve_commission_amount (row : Row) (premium : Option PyDec) :
    Except String (Option PyDec) :=
  match commissionKeys.findSome? (fun k => decimal_or_none (strOrNone (row_get row k))) with
  | some a => .ok (some a)
  | none =>
      let rate := decimal_or_none (strOrNone
        (pyOrStrOpt (row_get row "commission_rate") (row_get row "rate")))
      match premium, rate with
      | some p, some r =>
          match pyDecGtOne r with
          | .error e => .error e
          | .ok gt =>
              match (if gt then pyDecDiv100 r else .ok r) with
              | .error e => .error e
              | .ok r2 =>
                  match pyDecMul p r2 with
                  | .error e => .error e
                  | .ok prod => .ok (some prod)
      | _, _ => .ok none

/-- `_calculate_amount`: an explicit agent/producer amount wins outright;
    else `commission × split/100` when both known; else the commission.
    The division and product can raise (signaling NaN, `0 × ∞`). -/
def calculate_amount (commission split_pct : Option PyDec) (row : Row) :
    Except String (Option PyDec) :=
  match decimal_or_none (strOrNone
      (pyOrStrOpt (row_get row "agent_amount") (row_get row "producer_amount"))) with
  | some a => .ok (some a)
  | none =>
      match commission with
      | none => .ok none
      | some c =>
          match split_pct with
          | some s =>
              match pyDecDiv100 s with
              | .error e => .error e
              | .ok s2 =>
                  match pyDecMul c s2 with
                  | .error e => .error e
                  | .ok p => .ok (some p)
          | none => .ok (some c)

/-- `_resolve_basis`; `normalized.get("basis")` in the source chain is
    always `None` (the normalized map has no `basis` key), so it drops out. -/
def resolve_basis (raw : Row) : String :=
  pyOrStr (pyOrStrOpt (row_get raw "commission_basis") (row_get raw "basis")) "import"

def categoryKeys : List String :=
  ["category", "commission_type", "type", "revenue_type", "line_type"]

/-- `_resolve_category`, taking the org's already-normalized allow-list.
    The source's membership test is embedded verbatim: both of its branches
    return the same normalized value. -/
def resolve_category (raw : Row) (allowed : List String) : String :=
  match categoryKeys.findSome? (fun k =>
      match row_get raw k with
      | some v => if v ≠ "" then some (safe_str1 v) else none
      | none => none) with
  | some n => if allowed = [] ∨ n ∈ allowed then n else n
  | none => "raw"

def productKeys : List String := ["lob", "line_of_business", "product_type", "coverage"]

/-- `_resolve_product_type`; the normalized map has none of these keys, so
    the `or normalized.get(key)` fallback is always `None` and drops out. -/
def resolve_product_type (raw : Row) : Option String :=
  productKeys.findSome? (fun k =>
    match row_get raw k with
    | some v => if v ≠ "" then some v else none
    | none => none)

def noteKeys : List String := ["notes", "memo", "comments", "description", "status"]

/-- `_collect_notes`. -/
def collect_notes (raw : Row) : Option String :=
  let parts := noteKeys.foldl (fun acc k =>
    match row_get raw k with
    | some v => if v ≠ "" ∧ v ∉ acc then acc ++ [v] else acc
    | none => acc) []
  if parts = [] then none else some (String.intercalate "\n" parts)

def txnDateKeys : List String :=
  ["transaction_date", "date", "effective_date", "written_date", "paid_date"]

/-- `_parse_txn_date`: formats `%Y-%m-%d, %m/%d/%Y, %m/%d/%y, %Y/%m/%d`. -/
def parse_txn_date (raw : Row) : Option PyDate :=
  txnDateKeys.findSome? (fun k =>
    match row_get raw k with
    | some v =>
        if v = "" then none
        else [parseYmdSep '-', parseMdY4, parseMdY2, parseYmdSep '/'].findSome?
          (fun f => f v.data)
    | none => none)

/-! ## Transactions

Two views of a `CommissionTransaction` row are used.  `ImportTxn` is the
record as the import path creates it, with `PyDec` money fields — the
ingestion pipeline must represent the NaN/Infinity values that
`Decimal`/`float` construction can produce from statement cells.  `Txn`
(below, for the override engine) models a stored transaction state with
finite decimal money values, the domain over which the override claims
are stated. -/

/-- The `CommissionTransaction` as built by `_build_transaction`
    (`source="import"`, `status="provisional"`; the manual/override
    columns start `NULL` and ids/foreign keys not exercised by the claims
    are left to the persistence layer). -/
structure ImportTxn where
  producer_id : Option Nat
  workspace_id : Nat
  txn_date : PyDate
  premium : Option PyDec
  commission : Option PyDec
  basis : String
  split_pct : Option PyDec
  amount : Option PyDec
  category : String
  carrier_name : Option String
  product_type : Option String
  source : String
  status : String
  notes : Option String
deriving DecidableEq, Repr

/-- A stored `CommissionTransaction` state as the override engine
    manipulates it (finite decimal money values); ids/foreign keys not
    exercised by the claims are left to the persistence layer. -/
structure Txn where
  producer_id : Option Nat
  workspace_id : Nat
  txn_date : PyDate
  premium : Option ℚ
  commission : Option ℚ
  basis : String
  split_pct : Option ℚ
  amount : Option ℚ
  category : String
  carrier_name : Option String
  product_type : Option String
  source : String
  status : String
  notes : Option String
  manual_amount : Option ℚ
  manual_split_pct : Option ℚ
  override_source : Option String
  override_applied_at : Option Nat
  override_applied_by : Option Nat
deriving DecidableEq, Repr

/-- The premium resolved by `_build_transaction`:
    `_decimal_or_none(normalized.get("premium") or raw.get("premium"))`
    (no decimal arithmetic — never raises). -/
def resolved_premium (raw : Row) (normalized : NormalizedRow) : Option PyDec :=
  decimal_or_none (pyOrVal (numOrNone normalized.premium) (strOrNone (row_get raw "premium")))

/-- The commission resolved by `_build_transaction` (with the
    `_resolve_commission_amount` fallback, which can raise). -/
def resolved_commission (raw : Row) (normalized : NormalizedRow) :
    Except String (Option PyDec) :=
  match decimal_or_none
      (pyOrVal (numOrNone normalized.commission) (strOrNone (row_get raw "commission"))) with
  | some c => .ok (some c)
  | none => resolve_commission_amount raw (resolved_premium raw normalized)

/-- The payable amount resolved by `_build_transaction` (computed only
    after the commission resolution succeeded). -/
def resolved_amount (raw : Row) (normalized : NormalizedRow) (workspace_id : Nat)
    (producers : List Producer) : Except String (Option PyDec) :=
  match resolved_commission raw normalized with
  | .error e => .error e
  | .ok c => calculate_amount c (resolve_split raw (match_producer raw workspace_id producers)) raw

/-- `_build_transaction`: `.ok none` models the silent skip (`return
    None`), `.error` an uncaught `decimal.InvalidOperation` escaping the
    function (e.g. a NaN rate compared by `rate > 1`). -/
def build_transaction (raw : Row) (normalized : NormalizedRow) (workspace_id : Nat)
    (producers : List Producer) (carrier_name : Option String)
    (allowed_categories : List String) (today : PyDate) :
    Except String (Option ImportTxn) :=
  let premium := resolved_premium raw normalized
  match resolved_commission raw normalized with
  | .error e => .error e
  | .ok commission =>
      let producer := match_producer raw workspace_id producers
      let split_pct := resolve_split raw producer
      match calculate_amount commission split_pct raw with
      | .error e => .error e
      | .ok amount =>
          if premium = none ∧ commission = none ∧ amount = none then .ok none
          else .ok (some
            { producer_id := producer.map (·.id)
              workspace_id := workspace_id
              txn_date := (parse_txn_date raw).getD today
              premium := premium
              commission := commission
              basis := resolve_basis raw
              split_pct := split_pct
              amount := match amount with | some a => some a | none => commission
              category := resolve_category raw allowed_categories
              carrier_name := carrier_name
              product_type := resolve_product_type raw
              source := "import"
              status := "provisional"
              notes := collect_notes raw })

/-! ## The upload route (`app/imports.py :: upload`)

The model starts where the route has a decoded CSV in hand: the header
`fieldnames` and the parsed records.  File-system side effects (saving the
original and per-carrier CSV copies) and the notification e-mail are out of
scope.  Everything persisted by the route — `ImportBatch`, `ImportRow`,
`CommissionTransaction`, auto-created `Carrier` rows — is returned in the
result, so "nothing persisted" is expressible. -/

def get_category_choices (org_status_tags : List String) : List String :=
  if org_status_tags ≠ [] then org_status_tags
  else ["Auto", "Home", "Renters", "Life", "Raw", "Existing", "Renewal"]

structure ImportRowRec where
  raw : Row
  normalized : NormalizedRow
deriving DecidableEq, Repr

structure BatchRec where
  carrier_id : Nat
  /-- The grouped (trimmed, case-preserved) carrier string of this batch. -/
  carrier_key : String
  workspace_id : Nat
  period_month : String
  status : String
  import_rows : List ImportRowRec
  txns : List ImportTxn
deriving DecidableEq, Repr

inductive UploadResult where
  /-- `flash(...); return redirect(...)` before anything is written. -/
  | rejected (msg : String)
  | imported (batches : List BatchRec) (carriers : List CarrierRec)
  /-- An uncaught exception (e.g. `decimal.InvalidOperation` from
      `_build_transaction`): the request fails, `db.session.commit()` at
      the end of the route is never reached, and nothing is persisted. -/
  | error (msg : String)
deriving DecidableEq, Repr

/-- `h and h.strip().lower() == "carrier"` from the header scan. -/
def isCarrierHeader (h : String) : Bool :=
  h ≠ "" && lowerStr (pyStrip h) = "carrier"

/-- The per-batch transaction loop: `for import_row in import_rows:
    txn = _build_transaction(...); if txn: db.session.add(txn)`.  An
    exception in any row aborts the whole request. -/
def build_rows (workspace_id : Nat) (producers : List Producer)
    (carrier_name : Option String) (allowed : List String) (today : PyDate) :
    List ImportRowRec → Except String (List ImportTxn)
  | [] => .ok []
  | ir :: rest =>
      match build_transaction ir.raw ir.normalized workspace_id producers
          carrier_name allowed today with
      | .error e => .error e
      | .ok none => build_rows workspace_id producers carrier_name allowed today rest
      | .ok (some t) =>
          match build_rows workspace_id producers carrier_name allowed today rest with
          | .error e => .error e
          | .ok ts => .ok (t :: ts)

/-- The per-carrier-group loop of the upload route, threading the carrier
    table through `_resolve_carrier` and propagating any exception. -/
def upload_groups (carrier_field : String) (workspace_id : Nat)
    (producers : List Producer) (allowed : List String) (today : PyDate)
    (period : String) :
    List (String × List Row) → List CarrierRec →
      Except String (List BatchRec × List CarrierRec)
  | [], carriers => .ok ([], carriers)
  | g :: rest, carriers =>
      let rc := resolve_carrier carriers g.1
      let import_rows : List ImportRowRec :=
        g.2.map (fun r => ⟨r, normalize_row r carrier_field⟩)
      match build_rows workspace_id producers (some rc.1.name) allowed today import_rows with
      | .error e => .error e
      | .ok txns =>
          match upload_groups carrier_field workspace_id producers allowed today period
              rest rc.2 with
          | .error e => .error e
          | .ok (bs, cs) =>
              .ok (⟨rc.1.id, g.1, workspace_id, period, "imported", import_rows, txns⟩ :: bs,
                cs)

/-- The upload route from the point where the CSV is parsed.  The
    `carrier` header check happens before any record is created; rows are
    value-stripped, grouped by carrier key, and each group becomes one
    batch whose final status is `"imported"`.  A row whose build raises
    aborts the request before the single `db.session.commit()`, so an
    `.error` outcome persists nothing. -/
def upload (fieldnames : List String) (rawRows : List Row) (today : PyDate)
    (carriers0 : List CarrierRec) (workspace_id : Nat) (producers : List Producer)
    (category_choices : List String) : UploadResult :=
  match fieldnames.find? isCarrierHeader with
  | none => .rejected "The uploaded CSV must include a 'carrier' column."
  | some carrier_field =>
      let rows := rawRows.map (fun r => r.map (fun kv => (kv.1, pyStrip kv.2)))
      if rows = [] then .rejected "The uploaded CSV did not contain any rows."
      else
        let derived_period := derive_period_month rows today
        let allowed := category_choices.map safe_str1
        match upload_groups carrier_field workspace_id producers allowed today
            derived_period (group_rows_by_carrier rows carrier_field) carriers0 with
        | .error e => .error e
        | .ok (batches, carriers) => .imported batches carriers

def persistedBatches : UploadResult → List BatchRec
  | .rejected _ => []
  | .imported bs _ => bs
  | .error _ => []

def persistedImportRows (r : UploadResult) : List ImportRowRec :=
  (persistedBatches r).foldr (fun b acc => b.import_rows ++ acc) []

def persistedTxns (r : UploadResult) : List ImportTxn :=
  (persistedBatches r).foldr (fun b acc => b.txns ++ acc) []

def isRejected : UploadResult → Bool
  | .rejected _ => true
  | .imported _ _ => false
  | .error _ => false

/-! ## Manual entry (`app/imports.py :: manual_entry`): category choice -/

/-- The category logic of the manual-entry POST (lines 228–233): the form
    value falls back to `"raw"`, is normalized by `_safe_str`, and an
    unknown value becomes `category_normalized or "other"`. -/
def manual_entry_category (form_category : Option String) (raw_choices : List String) : String :=
  let category := pyOrStr form_category "raw"
  let category_normalized := safe_str1 category
  let category_choices := raw_choices.map safe_str1
  if category_normalized ∈ category_choices then category_normalized
  else pyOrStr (some category_normalized) "other"

/-! ## The override engine (`app/admin.py`) -/

inductive OverrideMode where
  | flat
  | percent
  | split
deriving DecidableEq, Repr

def OverrideMode.toStr : OverrideMode → String
  | .flat => "flat"
  | .percent => "percent"
  | .split => "split"

/-- The request-level mode validation:
    `override_mode not in {"flat", "percent", "split"}` rejects. -/
def parse_override_mode (s : String) : Option OverrideMode :=
  if s = "flat" then some .flat
  else if s = "percent" then some .percent
  else if s = "split" then some .split
  else none

/-- One `CommissionOverride` audit row. -/
structure OverrideRec where
  transaction_id : Nat
  override_type : String
  flat_amount : Option ℚ
  percent : Option ℚ
  split_pct : Option ℚ
  applied_by : Nat
  applied_at : Nat
  notes : Option String
deriving DecidableEq, Repr

/-- Percent mode's base: `txn.premium or txn.amount or txn.commission`
    (Python `or`: `None` *and zero* fall through). -/
def percent_base (txn : Txn) : Option ℚ :=
  pyOrOptQ (pyOrOptQ txn.premium txn.amount) txn.commission

/-- Split mode's base: `txn.commission if txn.commission is not None else
    txn.amount`, then `premium` only if that is still `None`
    (`is not None` checks — zero does not fall through here). -/
def split_base (txn : Txn) : Option ℚ :=
  let base := match txn.commission with
    | some c => some c
    | none => txn.amount
  if base = none ∧ txn.premium ≠ none then txn.premium else base

/-- The loop body of `apply_commission_override` (`app/admin.py` lines
    833–875) for one transaction the caller may access.  `_to_decimal` on a
    `Numeric` base is the identity.  Timestamps are abstract tokens. -/
def apply_override_to_txn (mode : OverrideMode) (value : ℚ) (user now : Nat)
    (notes : Option String) (txn_id : Nat) (txn : Txn) : Txn × OverrideRec :=
  let ov : OverrideRec :=
    { transaction_id := txn_id, override_type := mode.toStr, flat_amount := none,
      percent := none, split_pct := none, applied_by := user, applied_at := now,
      notes := notes }
  match mode with
  | .flat =>
      ({ txn with
          manual_amount := some value
          amount := some value
          commission := some value
          override_source := some "manual_flat"
          override_applied_at := some now
          override_applied_by := some user },
        { ov with flat_amount := some value })
  | .percent =>
      let txn' := match percent_base txn with
        | some b =>
            { txn with
              amount := some (b * (value / 100))
              manual_amount := some (b * (value / 100))
              commission := some (b * (value / 100)) }
        | none => txn
      ({ txn' with
          override_source := some "manual_percent"
          override_applied_at := some now
          override_applied_by := some user },
        { ov with percent := some value })
  | .split =>
      let txn1 := { txn with manual_split_pct := some value, split_pct := some value }
      let txn2 := match split_base txn1 with
        | some b =>
            { txn1 with
              amount := some (b * (value / 100))
              manual_amount := some (b * (value / 100))
              commission := some (b * (value / 100)) }
        | none => txn1
      ({ txn2 with
          override_source := some "manual_split"
          override_applied_at := some now
          override_applied_by := some user },
        { ov with split_pct := some value })

/-- The whole bulk loop over the requested transactions.  Each entry
    carries its id, current state, and whether the caller may access it
    (the agent-workspace check); inaccessible entries are skipped
    unchanged and produce no audit row. -/
def apply_commission_override (mode : OverrideMode) (value : ℚ) (user now : Nat)
    (notes : Option String) :
    List (Nat × Txn × Bool) → List (Nat × Txn) × List OverrideRec
  | [] => ([], [])
  | (tid, txn, accessible) :: rest =>
      let tail := apply_commission_override mode value user now notes rest
      if accessible then
        let (t', ov) := apply_override_to_txn mode value user now notes tid txn
        ((tid, t') :: tail.1, ov :: tail.2)
      else ((tid, txn) :: tail.1, tail.2)

/-- `edit_transaction` (`app/admin.py` lines 886–961), from the point after
    the form decimals parsed (an unparseable value aborts the request with
    no mutation, before this logic runs).  `status_value` and `note_body`
    are `None` or nonempty per the source's `(... or "").strip() or None`. -/
def edit_transaction (txn : Txn) (manual_amount : Option ℚ) (clear_manual_amount : Bool)
    (manual_split : Option ℚ) (clear_manual_split : Bool)
    (status_value : Option String) (note_body : Option String)
    (user now : Nat) (txn_id : Nat) : Txn × Option OverrideRec :=
  let t1 :=
    match manual_amount with
    | some a =>
        { txn with
          manual_amount := some a
          amount := some a
          commission := some a
          override_source := some "manual_edit" }
    | none =>
        if clear_manual_amount then
          { txn with
            manual_amount := none
            override_source :=
              if txn.override_source = some "manual_edit" then none
              else txn.override_source }
        else txn
  let t2 :=
    match manual_split with
    | some s =>
        { t1 with
          manual_split_pct := some s
          split_pct := some s
          override_source := some (pyOrStr t1.override_source "manual_edit") }
    | none =>
        if clear_manual_split then { t1 with manual_split_pct := none } else t1
  let t3 :=
    match status_value with
    | some s => { t2 with status := s }
    | none => t2
  let audit : Option OverrideRec :=
    if note_body ≠ none ∨ manual_amount ≠ none ∨ manual_split ≠ none then
      some { transaction_id := txn_id
             override_type := "manual_edit"
             flat_amount := manual_amount
             percent := none
             split_pct := manual_split
             applied_by := user
             applied_at := now
             notes := note_body }
    else none
  ({ t3 with override_applied_at := some now, override_applied_by := some user }, audit)

/-! ## Fixtures used by the concrete theorems -/

unseal Rat.mul Rat.inv Rat.add Rat.sub

set_option maxRecDepth 16384

/-- A transaction as an import would create it: premium `100`, an explicit
    commission `50`, and no resolved payable amount. -/
def txnPC : Txn :=
  { producer_id := none, workspace_id := 1, txn_date := ⟨2024, 1, 1⟩, premium := some 100
    commission := some 50, basis := "import", split_pct := none, amount := none
    category := "raw", carrier_name := some "Acme", product_type := none
    source := "import", status := "provisional", notes := none
    manual_amount := none, manual_split_pct := none, override_source := none
    override_applied_at := none, override_applied_by := none }

/-- `txnPC` after a manual edit set its amount (`override_source = "manual_edit"`). -/
def txnME : Txn := { txnPC with override_source := some "manual_edit", manual_amount := some 5 }

/-- `txnPC` after a flat bulk override (`override_source = "manual_flat"`). -/
def txnMF : Txn := { txnPC with override_source := some "manual_flat", manual_amount := some 5 }

/-! ## C1 — the base of percent/split bulk overrides -/

/-- **C1** (refuted).  The claim: in percent *and* split mode the base is
    the first non-null of `premium → amount → commission`, and the new
    amount is `base × value/100`.  On `txnPC` (premium `100`, amount
    `None`, commission `50`) a split override of `10` would then give
    `100 × 10/100 = 10`; the code's split branch prefers
    `commission → amount → premium` and writes `50 × 10/100 = 5`. -/
theorem C1_counterexample :
    txnPC.premium = some 100 ∧ txnPC.amount = none ∧ txnPC.commission = some 50 ∧
    (apply_override_to_txn .split 10 1 0 none 1 txnPC).1.amount = some 5 ∧
    ¬ (apply_override_to_txn .split 10 1 0 none 1 txnPC).1.amount = some (100 * (10 / 100)) := by
  decide

/-- **C1** (amended).  Percent mode derives its base by Python-truthiness
    fallback `premium → amount → commission` (a `None` *or zero* value
    falls through); split mode derives it by `None`-fallback
    `commission → amount → premium`.  In both modes the new amount is
    `base × value/100` when a base exists, and the amount is left
    unchanged when all three fields are `None` (percent: all falsy). -/
theorem C1_amended (txn : Txn) (v : ℚ) (user now tid : Nat) (notes : Option String) :
    ((apply_override_to_txn .percent v user now notes tid txn).1.amount =
      match percent_base txn with
      | some b => some (b * (v / 100))
      | none => txn.amount) ∧
    ((apply_override_to_txn .split v user now notes tid txn).1.amount =
      match split_base txn with
      | some b => some (b * (v / 100))
      | none => txn.amount) := by
  constructor
  · cases hb : percent_base txn <;> simp [apply_override_to_txn, hb]
  · have hb1 : split_base { txn with manual_split_pct := some v, split_pct := some v } =
        split_base txn := rfl
    cases hb : split_base txn <;> simp [apply_override_to_txn, hb1, hb]

/-! ## C4 — frame of a bulk override -/

/-- **C4** (refuted).  The claim: a bulk override writes only
    `amount`/`manual_amount`/`manual_split_pct`, `override_source` and the
    applied stamps — in particular `commission` is unchanged.  A flat
    override of `100` on `txnPC` (commission `50`) also rewrites
    `commission` to `100`. -/
theorem C4_counterexample :
    txnPC.commission = some 50 ∧
    (apply_override_to_txn .flat 100 1 0 none 1 txnPC).1.commission = some 100 ∧
    ¬ (apply_override_to_txn .flat 100 1 0 none 1 txnPC).1.commission = txnPC.commission := by
  decide

/-- **C4** (amended).  Every mode of a bulk override may write `amount`,
    `manual_amount`, **`commission`**, `override_source` and the applied
    stamps (split mode additionally `split_pct` and `manual_split_pct`);
    `premium`, `category`, `status` and every other transaction field are
    unchanged, flat and percent modes leave `split_pct`/`manual_split_pct`
    unchanged, and the bulk loop appends exactly one `CommissionOverride`
    row per accessible transaction. -/
theorem C4_amended (mode : OverrideMode) (txn : Txn) (v : ℚ) (user now tid : Nat)
    (notes : Option String) (entries : List (Nat × Txn × Bool)) :
    (let r := (apply_override_to_txn mode v user now notes tid txn).1;
      r.premium = txn.premium ∧ r.category = txn.category ∧ r.status = txn.status ∧
      r.basis = txn.basis ∧ r.txn_date = txn.txn_date ∧ r.producer_id = txn.producer_id ∧
      r.carrier_name = txn.carrier_name ∧ r.product_type = txn.product_type ∧
      r.source = txn.source ∧ r.notes = txn.notes ∧ r.workspace_id = txn.workspace_id) ∧
    (apply_override_to_txn .flat v user now notes tid txn).1.split_pct = txn.split_pct ∧
    (apply_override_to_txn .flat v user now notes tid txn).1.manual_split_pct =
      txn.manual_split_pct ∧
    (apply_override_to_txn .percent v user now notes tid txn).1.split_pct = txn.split_pct ∧
    (apply_override_to_txn .percent v user now notes tid txn).1.manual_split_pct =
      txn.manual_split_pct ∧
    (apply_commission_override mode v user now notes entries).2.length =
      (entries.filter (fun e => e.2.2)).length := by
  refine ⟨?_, ?_, ?_, ?_, ?_, ?_⟩
  · cases mode with
    | flat => simp [apply_override_to_txn]
    | percent => cases hb : percent_base txn <;> simp [apply_override_to_txn, hb]
    | split =>
        have hb1 : split_base { txn with manual_split_pct := some v, split_pct := some v } =
            split_base txn := rfl
        cases hb : split_base txn <;> simp [apply_override_to_txn, hb1, hb]
  · simp [apply_override_to_txn]
  · simp [apply_override_to_txn]
  · cases hb : percent_base txn <;> simp [apply_override_to_txn, hb]
  · cases hb : percent_base txn <;> simp [apply_override_to_txn, hb]
  · induction entries with
    | nil => simp [apply_commission_override]
    | cons e rest ih =>
        obtain ⟨tid', txn', acc⟩ := e
        cases acc <;> simp [apply_commission_override, ih]

/-! ## C7 — clearing a manual amount vs `override_source` -/

/-- **C7** (refuted).  The claim: for *every* manual edit that clears the
    manual amount, `override_source` ends `null` iff it was previously
    `"manual_edit"`.  An edit that clears the amount *and* sets a manual
    split re-stamps `override_source` to `"manual_edit"`
    (`txn.override_source or "manual_edit"`), so on `txnME` (previously
    `"manual_edit"`) the final source is not `null`. -/
theorem C7_counterexample :
    txnME.override_source = some "manual_edit" ∧
    ¬ (edit_transaction txnME none true (some 50) false none none 1 0 1).1.override_source
      = none := by
  decide

/-- **C7** (amended).  An edit that clears the manual amount resets
    `override_source` to `null` exactly when it was `"manual_edit"`
    (leaving e.g. `"manual_flat"` untouched) — *provided* the same edit
    does not also set a manual split; if it does, the split branch
    re-stamps `override_source` with `prev or "manual_edit"` applied to
    the already-cleared value. -/
theorem C7_amended (txn : Txn) (cs : Bool) (v : ℚ) (sv nb : Option String)
    (user now tid : Nat) :
    ((edit_transaction txn none true none cs sv nb user now tid).1.override_source =
      if txn.override_source = some "manual_edit" then none else txn.override_source) ∧
    ((edit_transaction txn none true (some v) cs sv nb user now tid).1.override_source =
      some (pyOrStr (if txn.override_source = some "manual_edit" then none
        else txn.override_source) "manual_edit")) := by
  constructor <;> cases cs <;> cases sv <;> rfl

/-! ## C10 — setting/clearing a manual split vs `override_source` -/

/-- **C10** (refuted).  The claim: an edit that sets a manual split
    preserves an existing `override_source` (stamping `"manual_edit"` only
    when it was previously `null`).  An edit that sets a manual split *and*
    a manual amount on `txnMF` (previously `"manual_flat"`) ends with
    `override_source = "manual_edit"`: the amount branch stamps it
    unconditionally first. -/
theorem C10_counterexample :
    txnMF.override_source = some "manual_flat" ∧
    (edit_transaction txnMF (some 10) false (some 50) false none none 1 0 1).1.override_source
      = some "manual_edit" ∧
    ¬ (edit_transaction txnMF (some 10) false (some 50) false none none 1 0 1).1.override_source
      = txnMF.override_source := by
  decide

/-- **C10** (amended).  For an edit that sets a manual split and no manual
    amount, `override_source` becomes `prev or "manual_edit"` — i.e.
    `"manual_edit"` exactly when the previous value was `null` (or the
    falsy `""`), the previous value otherwise, whether or not the same
    edit clears the amount; an edit that only clears the manual split
    leaves `override_source` untouched; and an edit that also sets a
    manual amount always ends with `"manual_edit"`. -/
theorem C10_amended (txn : Txn) (v a : ℚ) (ca csf : Bool) (sv nb : Option String)
    (user now tid : Nat) :
    ((edit_transaction txn none ca (some v) csf sv nb user now tid).1.override_source =
      some (pyOrStr txn.override_source "manual_edit")) ∧
    ((edit_transaction txn none false none true sv nb user now tid).1.override_source =
      txn.override_source) ∧
    ((edit_transaction txn (some a) ca (some v) csf sv nb user now tid).1.override_source =
      some "manual_edit") := by
  refine ⟨?_, ?_, ?_⟩
  · cases ca <;> cases sv <;>
      · simp only [edit_transaction, pyOrStr]
        rcases h : txn.override_source with _ | s <;> simp [h] <;> split_ifs <;> simp_all
  · cases sv <;> rfl
  · cases ca <;> cases sv <;> simp [edit_transaction, pyOrStr]

/-! ## C5 — manual-entry category fallback -/

/-- **C5** (refuted).  The claim: a manual-entry category not among the
    org's choices is stored as the canonical fallback `"other"`.  The code
    computes `category_normalized or "other"`, so an *unknown but
    nonempty* value is stored as-is: `"Special Line"` against choices
    `["Auto", "Home"]` is stored as `"special line"`, not `"other"`. -/
theorem C5_counterexample :
    safe_str1 "Special Line" ∉ (["Auto", "Home"].map safe_str1) ∧
    manual_entry_category (some "Special Line") ["Auto", "Home"] = "special line" ∧
    ¬ manual_entry_category (some "Special Line") ["Auto", "Home"] = "other" := by
  decide

/-- **C5** (amended).  A category whose trimmed lower-casing is not among
    the normalized choices is stored as-is; the `"other"` fallback applies
    only when that normalization is the empty string (e.g. a whitespace
    form value). -/
theorem C5_amended (form_category : Option String) (raw_choices : List String)
    (h : safe_str1 (pyOrStr form_category "raw") ∉ raw_choices.map safe_str1) :
    manual_entry_category form_category raw_choices =
      (if safe_str1 (pyOrStr form_category "raw") = "" then "other"
        else safe_str1 (pyOrStr form_category "raw")) := by
  simp only [manual_entry_category]
  rw [if_neg h]
  rfl

/-- **C5** witness: the amended statement applied to the concrete
    counterexample input. -/
theorem C5_amended_witness :
    manual_entry_category (some "Special Line") ["Auto", "Home"] =
      (if safe_str1 (pyOrStr (some "Special Line") "raw") = "" then "other"
        else safe_str1 (pyOrStr (some "Special Line") "raw")) :=
  C5_amended (some "Special Line") ["Auto", "Home"] (by decide)

/-! ## C8 — rejection of uploads without a carrier header -/

/-- **C8** (confirmed).  An upload whose header has no column equal to
    `"carrier"` after trimming and lower-casing is rejected before any
    record is built: the result is a rejection signal carrying zero
    `ImportBatch`, `ImportRow` and `CommissionTransaction` records. -/
theorem C8_missing_carrier_rejects (fieldnames : List String) (rawRows : List Row)
    (today : PyDate) (carriers0 : List CarrierRec) (ws : Nat)
    (producers : List Producer) (choices : List String)
    (h : ∀ f ∈ fieldnames, lowerStr (pyStrip f) ≠ "carrier") :
    isRejected (upload fieldnames rawRows today carriers0 ws producers choices) = true ∧
    persistedBatches (upload fieldnames rawRows today carriers0 ws producers choices) = [] ∧
    persistedImportRows (upload fieldnames rawRows today carriers0 ws producers choices) = [] ∧
    persistedTxns (upload fieldnames rawRows today carriers0 ws producers choices) = [] := by
  have hf : fieldnames.find? isCarrierHeader = none := by
    rw [List.find?_eq_none]
    intro x hx
    simp [isCarrierHeader, h x hx]
  simp [upload, hf, isRejected, persistedBatches, persistedImportRows, persistedTxns]

/-- **C8** witness: a concrete header without a carrier column. -/
theorem C8_missing_carrier_rejects_witness :
    isRejected (upload ["name", "amount"] [[("name", "A"), ("amount", "10")]]
      ⟨2024, 1, 1⟩ [] 1 [] []) = true ∧
    persistedBatches (upload ["name", "amount"] [[("name", "A"), ("amount", "10")]]
      ⟨2024, 1, 1⟩ [] 1 [] []) = [] ∧
    persistedImportRows (upload ["name", "amount"] [[("name", "A"), ("amount", "10")]]
      ⟨2024, 1, 1⟩ [] 1 [] []) = [] ∧
    persistedTxns (upload ["name", "amount"] [[("name", "A"), ("amount", "10")]]
      ⟨2024, 1, 1⟩ [] 1 [] []) = [] :=
  C8_missing_carrier_rejects ["name", "amount"] [[("name", "A"), ("amount", "10")]]
    ⟨2024, 1, 1⟩ [] 1 [] [] (by decide)

/-! ## C9 — a transaction exists iff some monetary field resolved -/

/-- The C9 counterexample row: a parseable premium together with a NaN
    rate cell. -/
def nanRow : Row := [("premium", "100"), ("rate", "nan")]

/-- **C9** (refuted).  The claim: a transaction is created iff at least
    one of resolved premium/commission/amount is non-null, and an
    all-unresolved row is silently skipped *without raising*.  On a row
    with `premium=100` and `rate=nan`, the resolved premium is non-null,
    yet no transaction is created: `Decimal("nan")` is a valid NaN, and
    `rate > 1` inside `_resolve_commission_amount` raises
    `decimal.InvalidOperation`, which nothing catches — the whole upload
    aborts with nothing persisted. -/
theorem C9_counterexample :
    resolved_premium nanRow (normalize_row nanRow "carrier") = some (.fin 100) ∧
    ¬ resolved_premium nanRow (normalize_row nanRow "carrier") = none ∧
    build_transaction nanRow (normalize_row nanRow "carrier") 1 [] (some "Acme") []
      ⟨2024, 1, 1⟩ = .error "InvalidOperation" ∧
    upload ["carrier", "premium", "rate"]
      [[("carrier", "X"), ("premium", "100"), ("rate", "nan")]]
      ⟨2024, 1, 1⟩ [] 1 [] [] = .error "InvalidOperation" ∧
    persistedTxns (upload ["carrier", "premium", "rate"]
      [[("carrier", "X"), ("premium", "100"), ("rate", "nan")]]
      ⟨2024, 1, 1⟩ [] 1 [] []) = [] := by
  decide

/-- **C9** (amended).  When `_build_transaction` returns (raises no
    `decimal.InvalidOperation`), it creates a transaction iff at least one
    of the resolved premium, resolved commission and computed payable
    amount is non-null — an all-unresolved row is silently skipped; but
    the function can instead raise (NaN rate under `rate > 1`, signaling
    NaN or `0 × ∞` in a product), and then the escaping exception is one
    produced by the commission or the amount resolution. -/
theorem C9_amended (raw : Row) (normalized : NormalizedRow) (ws : Nat)
    (producers : List Producer) (cn : Option String) (allowed : List String)
    (today : PyDate) :
    (∀ t : Option ImportTxn,
      build_transaction raw normalized ws producers cn allowed today = .ok t →
        (t ≠ none ↔ (resolved_premium raw normalized ≠ none ∨
          resolved_commission raw normalized ≠ .ok none ∨
          resolved_amount raw normalized ws producers ≠ .ok none))) ∧
    (∀ e : String,
      build_transaction raw normalized ws producers cn allowed today = .error e →
        (resolved_commission raw normalized = .error e ∨
          resolved_amount raw normalized ws producers = .error e)) := by
  cases hc : resolved_commission raw normalized with
  | error e0 =>
      constructor
      · intro t ht
        simp only [build_transaction, hc] at ht
        exact Except.noConfusion ht
      · intro e he
        simp only [build_transaction, hc, Except.error.injEq] at he
        exact Or.inl (by rw [he])
  | ok c =>
      have hra : resolved_amount raw normalized ws producers =
          calculate_amount c (resolve_split raw (match_producer raw ws producers)) raw := by
        simp only [resolved_amount, hc]
      cases ha : calculate_amount c (resolve_split raw (match_producer raw ws producers)) raw with
      | error e0 =>
          constructor
          · intro t ht
            simp only [build_transaction, hc, ha] at ht
            exact Except.noConfusion ht
          · intro e he
            simp only [build_transaction, hc, ha, Except.error.injEq] at he
            refine Or.inr ?_
            rw [hra, ha, he]
      | ok a =>
          constructor
          · intro t ht
            simp only [build_transaction, hc, ha] at ht
            rw [hra, ha]
            split_ifs at ht with hcond
            · simp only [Except.ok.injEq] at ht
              subst ht
              simp [hcond.1, hcond.2.1, hcond.2.2, hc]
            · simp only [Except.ok.injEq] at ht
              subst ht
              simp only [ne_eq, Option.some_ne_none, not_false_eq_true, true_iff]
              by_cases hp : resolved_premium raw normalized = none
              · by_cases hcm : c = none
                · have hana : ¬ a = none := fun hz => hcond ⟨hp, hcm, hz⟩
                  exact Or.inr (Or.inr (by simp [hana]))
                · exact Or.inr (Or.inl (by simp [hc, hcm]))
              · exact Or.inl hp
          · intro e he
            simp only [build_transaction, hc, ha] at he
            split_ifs at he

/-- **C9** witness: the amended statement's two parts exercised at
    concrete rows — the empty row (everything unresolved, silently
    skipped) and the NaN-rate row (the escaping `InvalidOperation` comes
    from the commission/amount resolution). -/
theorem C9_amended_witness :
    ((none : Option ImportTxn) ≠ none ↔
      (resolved_premium [] (normalize_row [] "carrier") ≠ none ∨
        resolved_commission [] (normalize_row [] "carrier") ≠ .ok none ∨
        resolved_amount [] (normalize_row [] "carrier") 1 [] ≠ .ok none)) ∧
    (resolved_commission nanRow (normalize_row nanRow "carrier") = .error "InvalidOperation" ∨
      resolved_amount nanRow (normalize_row nanRow "carrier") 1 [] = .error "InvalidOperation") :=
  ⟨(C9_amended [] (normalize_row [] "carrier") 1 [] none [] ⟨2024, 1, 1⟩).1 none (by decide),
    (C9_amended nanRow (normalize_row nanRow "carrier") 1 [] (some "Acme") [] ⟨2024, 1, 1⟩).2
      "InvalidOperation" (by decide)⟩

/-! ## C2 — carrier grouping is case-sensitive -/

theorem mem_dedupKeep (x : String) (l : List String) :
    ∀ seen : List String, x ∈ dedupKeep seen l ↔ x ∈ l ∧ ¬ x ∈ seen := by
  induction l with
  | nil => intro seen; simp [dedupKeep]
  | cons y ys ih =>
      intro seen
      simp only [dedupKeep]
      by_cases hy : y ∈ seen
      · rw [if_pos (List.elem_iff.2 hy), ih, List.mem_cons]
        constructor
        · exact fun h => ⟨Or.inr h.1, h.2⟩
        · rintro ⟨rfl | hm, hs⟩
          · exact absurd hy hs
          · exact ⟨hm, hs⟩
      · rw [if_neg (fun hc => hy (List.elem_iff.1 hc))]
        simp only [List.mem_cons, ih, List.mem_cons]
        by_cases hxy : x = y
        · simp [hxy, hy]
        · simp [hxy]

theorem mem_firstDedup (x : String) (l : List String) : x ∈ firstDedup l ↔ x ∈ l := by
  rw [firstDedup, mem_dedupKeep]
  simp

theorem dedupKeep_nodup (l : List String) : ∀ seen : List String, (dedupKeep seen l).Nodup := by
  induction l with
  | nil => intro seen; simp [dedupKeep]
  | cons y ys ih =>
      intro seen
      simp only [dedupKeep]
      by_cases hy : y ∈ seen
      · rw [if_pos (List.elem_iff.2 hy)]
        exact ih seen
      · rw [if_neg (fun hc => hy (List.elem_iff.1 hc))]
        refine List.nodup_cons.2 ⟨?_, ih (y :: seen)⟩
        rw [mem_dedupKeep]
        rintro ⟨-, hns⟩
        exact hns (List.mem_cons_self _ _)

theorem firstDedup_nodup (l : List String) : (firstDedup l).Nodup :=
  dedupKeep_nodup l []

def demoRowA : Row := [("carrier", "Acme"), ("premium", "100")]
def demoRowB : Row := [("carrier", "acme"), ("premium", "200")]
def demoRows : List Row := [demoRowA, demoRowB]

/-- The upload of a file whose two rows name carriers `"Acme"` and
    `"acme"`, into an org with no pre-existing carriers. -/
def demoUpload : UploadResult :=
  upload ["carrier", "premium"] demoRows ⟨2024, 1, 1⟩ [] 1 [] []

/-- **C2** (refuted).  The claim: rows whose carrier values differ only in
    case group together and produce a *single* `ImportBatch`.  The dict
    key of `_group_rows_by_carrier` is the trimmed, case-preserved string,
    so `"Acme"` and `"acme"` form two groups and the upload creates two
    batches. -/
theorem C2_counterexample :
    row_get demoRowA "carrier" = some "Acme" ∧
    row_get demoRowB "carrier" = some "acme" ∧
    lowerStr "Acme" = lowerStr "acme" ∧
    (persistedBatches demoUpload).length = 2 ∧
    ¬ (persistedBatches demoUpload).length = 1 := by
  decide

/-- **C2** (amended).  Grouping is case-sensitive on the trimmed carrier
    string: group keys are pairwise distinct, every row lands exactly in
    the group of its own key, and each key's group collects precisely the
    rows bearing it — so case-differing carrier values produce *separate*
    batches.  Those batches do, however, resolve to a single `Carrier`
    record, because `_resolve_carrier` matches names case-insensitively:
    the demo upload yields two batches, both with carrier id `0`, and
    exactly one created `Carrier` (named `"Acme"`, the first spelling
    seen). -/
theorem C2_amended :
    (∀ rows cf, List.Pairwise (fun a b => a.1 ≠ b.1) (group_rows_by_carrier rows cf)) ∧
    (∀ rows cf g r, g ∈ group_rows_by_carrier rows cf → r ∈ g.2 →
      row_carrier_key r cf = g.1) ∧
    (∀ rows cf r, r ∈ rows →
      (row_carrier_key r cf,
        rows.filter (fun r2 => row_carrier_key r2 cf = row_carrier_key r cf)) ∈
        group_rows_by_carrier rows cf) ∧
    ((persistedBatches demoUpload).map (fun b => (b.carrier_key, b.carrier_id)) =
      [("Acme", 0), ("acme", 0)]) ∧
    (match demoUpload with
      | .imported _ carriers => carriers
      | _ => []) = [⟨0, "Acme"⟩] := by
  refine ⟨?_, ?_, ?_, by decide, by decide⟩
  · intro rows cf
    unfold group_rows_by_carrier
    rw [List.pairwise_map]
    exact (firstDedup_nodup _).imp (fun hab => hab)
  · intro rows cf g r hg hr
    unfold group_rows_by_carrier at hg
    obtain ⟨k, hk, rfl⟩ := List.mem_map.1 hg
    simp only [List.mem_filter, decide_eq_true_eq] at hr
    exact hr.2
  · intro rows cf r hr
    unfold group_rows_by_carrier
    refine List.mem_map.2 ⟨row_carrier_key r cf, ?_, rfl⟩
    rw [mem_firstDedup]
    exact List.mem_map_of_mem _ hr

/-- **C2** witness: the amended statement's row-membership parts at the
    demo file. -/
theorem C2_amended_witness :
    (row_carrier_key demoRowB "carrier",
      demoRows.filter (fun r2 =>
        row_carrier_key r2 "carrier" = row_carrier_key demoRowB "carrier")) ∈
      group_rows_by_carrier demoRows "carrier" ∧
    row_carrier_key demoRowB "carrier" = "acme" :=
  ⟨C2_amended.2.2.1 demoRows "carrier" demoRowB (by decide),
    C2_amended.2.1 demoRows "carrier" ("acme", [demoRowB]) demoRowB (by decide) (by decide)⟩

/-! ## C6 — period inference takes one date per row, not all candidates -/

/-- Modelled from the claim's words (spec §4.2 as read by C6): *every*
    column whose name contains a period term contributes a candidate date,
    over every row. -/
def row_period_candidates (row : Row) : List PyDate :=
  row.filterMap (fun kv =>
    if kv.1 = "" ∨ kv.2 = "" then none
    else if hasPeriodTerm (lowerStr kv.1) then parse_any_date kv.2
    else none)

/-- Modelled from the claim's words: the earliest date parsed from any
    candidate column of any row, else today. -/
def derive_period_month_claim (rows : List Row) (today : PyDate) : String :=
  match minDate ((rows.map row_period_candidates).flatten) with
  | some d => strfYm d
  | none => strfYm today

def periodRows : List Row :=
  [[("effective date", "2020-05-01"), ("written date", "2019-01-01")]]

/-- **C6** (refuted).  The claim: the batch period is the earliest date
    over *every* candidate column of every row.  The code `break`s out of
    a row after its first successfully parsed candidate, so in a row with
    candidates `2020-05-01` (first) and `2019-01-01` (second) the earlier
    second date is never considered: the code derives `"2020-05"` where
    the claim's reading derives `"2019-01"`. -/
theorem C6_counterexample :
    derive_period_month periodRows ⟨2024, 3, 4⟩ = "2020-05" ∧
    derive_period_month_claim periodRows ⟨2024, 3, 4⟩ = "2019-01" ∧
    ¬ derive_period_month periodRows ⟨2024, 3, 4⟩ =
      derive_period_month_claim periodRows ⟨2024, 3, 4⟩ := by
  decide

/-- **C6** (amended).  Each row contributes at most one date — the *first*
    candidate column (in header order) whose value parses, unparseable
    candidates being skipped — and the batch period is the earliest of
    those per-row dates (formatted `%Y-%m`), falling back to the current
    date when no row yields one. -/
theorem C6_amended :
    (∀ row : Row, rowPeriodDate row = (row_period_candidates row).head?) ∧
    (∀ (rows : List Row) (today : PyDate),
      derive_period_month rows today =
        match minDate (rows.filterMap rowPeriodDate) with
        | some d => strfYm d
        | none => strfYm today) := by
  constructor
  · intro row
    induction row with
    | nil => rfl
    | cons kv rest ih =>
        obtain ⟨k, v⟩ := kv
        simp only [rowPeriodDate, row_period_candidates, List.filterMap_cons]
        split_ifs with h1 h2
        · exact ih
        · cases hp : parse_any_date v <;> simp [hp, ih, row_period_candidates]
        · exact ih
  · intro rows today
    rfl

/-! ## C3 — `_parse_amount` produces binary floats, not exact decimals -/

/-- **C3** (refuted).  The claim: currency cells are parsed to an *exact
    decimal* (never a binary float), `"$1,234.56"` yielding exactly
    `1234.56`.  `_parse_amount` calls Python `float(cleaned)`, so
    `"$1,234.56"` parses to the binary64 value
    `2714826150374277/2^41 = 1234.55999999999994543…`, which is not
    `123456/100`. -/
theorem C3_counterexample :
    parse_amount (some "$1,234.56") = some (.fin (2714826150374277 / 2199023255552 : ℚ)) ∧
    ¬ parse_amount (some "$1,234.56") = some (.fin (123456 / 100 : ℚ)) := by
  decide

/-- **C3** (amended).  `_parse_amount` strips `,` and `$` and parses with
    Python `float`, i.e. to the nearest IEEE-754 binary64 value — exact
    only when the decimal happens to be representable (as for integers
    like `"1,000"` or dyadics like `"$ 12.5"`); `"$1,234.56"` becomes the
    double nearest `1234.56`, which differs from it.  The `nan`/`inf`
    spellings and PEP-515 underscore literals `float` accepts produce the
    corresponding special/finite values; failures and missing values
    yield `None` without raising. -/
theorem C3_amended :
    parse_amount (some "$1,234.56") = some (.fin (roundF64 (123456 / 100))) ∧
    ¬ roundF64 (123456 / 100) = (123456 / 100 : ℚ) ∧
    parse_amount (some "1,000") = some (.fin 1000) ∧
    parse_amount (some "$ 12.5") = some (.fin (25 / 2)) ∧
    parse_amount (some "nan") = some (.nan false) ∧
    parse_amount (some "-Inf") = some (.inf true) ∧
    parse_amount (some "1_000.5") = some (.fin (2001 / 2)) ∧
    parse_amount (some "1_") = none ∧
    parse_amount (some "abc") = none ∧
    parse_amount (some "") = none ∧
    parse_amount none = none := by
  decide

end TrackYourSheets
